import Mathlib

/-!
Shallow embedding of the advanced execution orchestrator
(`execute_advanced` in `backend/e2b-service/main.py`) of the ClaraVerse
E2B code-executor microservice, together with the base64 encoding its
artifact records use.

The external sandbox provider is modelled by a `SandboxEnv` record giving
the outcome of each provider call the orchestrator can make during one
request; `execute_advanced` is then a pure function of the request and this
environment, returning the response together with the ordered trace of
provider calls it performed.  Wall-clock timing (`execution_time`) is not
modelled.  Python `set`s are modelled as duplicate-free lists in insertion
order; only membership and difference are relied upon.
-/

namespace ClaraVerse

/-- Truthiness of an optional string attribute, as Python evaluates
`result.stdout` or `result.png`: `None` and the empty string are falsy. -/
def strTruthy : Option String → Bool
  | some s => s ≠ ""
  | none => false

/-- Splitting a character list at every character satisfying `p`, keeping
empty fragments (the splitting underlying Python `str.split(sep)`). -/
def splitByAux (p : Char → Bool) : List Char → List Char → List (List Char)
  | [], acc => [acc.reverse]
  | c :: cs, acc =>
    if p c then acc.reverse :: splitByAux p cs []
    else splitByAux p cs (c :: acc)

/-- Split a character list at every character satisfying `p`. -/
def splitBy (p : Char → Bool) (cs : List Char) : List (List Char) :=
  splitByAux p cs []

/-- Whether the first list is a prefix of the second. -/
def isPrefixChars : List Char → List Char → Bool
  | [], _ => true
  | _ :: _, [] => false
  | a :: as, b :: bs => decide (a = b) && isPrefixChars as bs

/-- Python `str.strip()`: drop leading and trailing whitespace. -/
def pyStrip (s : String) : String :=
  String.mk (((s.data.dropWhile Char.isWhitespace).reverse.dropWhile
    Char.isWhitespace).reverse)

/-- Python `str.startswith(pre)`. -/
def pyStartsWith (s pre : String) : Bool :=
  isPrefixChars pre.data s.data

/-- Python `s.split("\n")`: one fragment per line, empties kept. -/
def splitLines (s : String) : List String :=
  (splitBy (fun c => c = '\n') s.data).map (fun cs => String.mk cs)

/-- Python `str.split()` with no separator: split on whitespace runs,
dropping empty fragments. -/
def pySplit (s : String) : List String :=
  ((splitBy Char.isWhitespace s.data).filter (fun w => w ≠ [])).map
    (fun cs => String.mk cs)

/-- Python `os.path.basename`: the part after the last slash. -/
def basename (p : String) : String :=
  String.mk ((splitBy (fun c => c = '/') p.data).getLastD [])

/-- Search for `needle` as a sub-list anywhere in the haystack. -/
def containsAux (needle : List Char) : List Char → Bool
  | [] => isPrefixChars needle []
  | c :: rest => isPrefixChars needle (c :: rest) || containsAux needle rest

/-- Python `pat in s` substring test. -/
def strContains (s pat : String) : Bool :=
  containsAux pat.data s.data

/-- Adding an element to a set modelled as a duplicate-free list in
insertion order (Python `set.add`). -/
def addSet (l : List String) (x : String) : List String :=
  if x ∈ l then l else l ++ [x]

/-- The base64 alphabet used by `base64.b64encode`. -/
def b64chars : List Char :=
  ['A','B','C','D','E','F','G','H','I','J','K','L','M',
   'N','O','P','Q','R','S','T','U','V','W','X','Y','Z',
   'a','b','c','d','e','f','g','h','i','j','k','l','m',
   'n','o','p','q','r','s','t','u','v','w','x','y','z',
   '0','1','2','3','4','5','6','7','8','9','+','/']

/-- Character for one six-bit group. -/
def b64encChar (n : Nat) : Char := b64chars.getD n '='

/-- Six-bit value of one alphabet character (`none` for a character outside
the alphabet, in particular for the pad character). -/
def b64decChar (c : Char) : Option Nat :=
  let i := b64chars.indexOf c
  if i < 64 then some i else none

/-- `base64.b64encode` on a byte list, as characters (with `=` padding). -/
def b64encodeChars : List Nat → List Char
  | [] => []
  | [b1] => [b64encChar (b1 / 4), b64encChar (b1 % 4 * 16), '=', '=']
  | [b1, b2] => [b64encChar (b1 / 4), b64encChar (b1 % 4 * 16 + b2 / 16),
                 b64encChar (b2 % 16 * 4), '=']
  | b1 :: b2 :: b3 :: rest =>
      b64encChar (b1 / 4) :: b64encChar (b1 % 4 * 16 + b2 / 16) ::
      b64encChar (b2 % 16 * 4 + b3 / 64) :: b64encChar (b3 % 64) ::
      b64encodeChars rest

/-- `base64.b64encode(content).decode("utf-8")`. -/
def b64encode (bs : List Nat) : String := String.mk (b64encodeChars bs)

/-- Base64 decoding of a character list back to bytes. -/
def b64decodeChars : List Char → Option (List Nat)
  | [] => some []
  | c1 :: c2 :: c3 :: c4 :: rest =>
    if c3 = '=' then
      if rest.isEmpty then
        match b64decChar c1, b64decChar c2 with
        | some s1, some s2 => some [s1 * 4 + s2 / 16]
        | _, _ => none
      else none
    else if c4 = '=' then
      if rest.isEmpty then
        match b64decChar c1, b64decChar c2, b64decChar c3 with
        | some s1, some s2, some s3 =>
            some [s1 * 4 + s2 / 16, s2 % 16 * 16 + s3 / 4]
        | _, _, _ => none
      else none
    else
      match b64decChar c1, b64decChar c2, b64decChar c3, b64decChar c4,
            b64decodeChars rest with
      | some s1, some s2, some s3, some s4, some t =>
          some ((s1 * 4 + s2 / 16) :: (s2 % 16 * 16 + s3 / 4) ::
                (s3 % 4 * 64 + s4) :: t)
      | _, _, _, _, _ => none
  | _ => none

/-- Base64 decoding of a string. -/
def b64decode (s : String) : Option (List Nat) := b64decodeChars s.data

/-- Outcome of one `sandbox.commands.run` call.  `stdout`/`stderr` are the
texts the command emitted; `exc = some msg` means the SDK call raised an
exception rendered as `msg` (timeout, non-zero exit, transport failure), in
which case the Python caller never observes the emitted texts through the
call. -/
structure CommandOutcome where
  stdout : Option String
  stderr : Option String
  exc : Option String := none
deriving DecidableEq

/-- One value of `execution.results`: optional base64 image payload and
optional text rendering. -/
structure ExecResultValue where
  png : Option String := none
  text : Option String := none
deriving DecidableEq

/-- The `execution.logs` streams: lists of output fragments. -/
structure ExecLogs where
  stdout : List String := []
  stderr : List String := []
deriving DecidableEq

/-- Outcome of `sandbox.run_code`. -/
structure Execution where
  logs : ExecLogs
  error : Option String := none
  results : List ExecResultValue := []
deriving DecidableEq

/-- Content returned by `sandbox.files.read`: the provider may return text
or raw bytes. -/
inductive ReadContent where
  | str (s : String)
  | bytes (b : List Nat)
deriving DecidableEq

/-- `content.encode("utf-8")` when the provider returned text, else the
bytes unchanged. -/
def contentBytes : ReadContent → List Nat
  | .str s => s.toUTF8.toList.map (fun b => b.toNat)
  | .bytes b => b

/-- A generated plot, base64 encoded. -/
structure PlotResult where
  format : String
  data : String
deriving DecidableEq

/-- One artifact record: basename, base64 payload, byte length. -/
structure FileResult where
  filename : String
  data : String
  size : Nat
deriving DecidableEq

/-- The validated request object (`AdvancedExecuteRequest`). -/
structure AdvancedExecuteRequest where
  code : String
  timeout : Nat := 30
  dependencies : List String := []
  output_files : List String := []
deriving DecidableEq

/-- The terminal response object (`AdvancedExecuteResponse`); the
wall-clock `execution_time` field is outside the embedding. -/
structure AdvancedExecuteResponse where
  success : Bool
  stdout : String
  stderr : String
  error : Option String := none
  plots : List PlotResult := []
  files : List FileResult := []
  install_output : String := ""
deriving DecidableEq

/-- One blocking call into the sandbox provider, with the timeout argument
the orchestrator passed at the call site (`none` when the call site passes
no timeout at all). -/
inductive SandboxCall where
  | runCommand (cmd : String) (timeout : Option Nat)
  | runCode (code : String) (timeout : Option Nat)
  | readFile (path : String) (timeout : Option Nat)
deriving DecidableEq

/-- The provider environment for one request: the outcome of each call the
orchestrator can make. -/
structure SandboxEnv where
  installCmd : CommandOutcome
  listBeforeCmd : CommandOutcome
  runCode : Execution
  listAfterCmd : CommandOutcome
  readFile : String → Except String ReadContent

/-- Per-line step of the snapshot parser (`main.py` lines 317-328 and
381-390): strip the line; skip empty lines and `total` summary lines; a
line starting with a slash is taken whole; otherwise a long-form listing
line with at least nine whitespace-separated fields contributes its last
field; anything else is ignored. -/
def lineEntry (line : String) : Option String :=
  let l := pyStrip line
  if l = "" then none
  else if pyStartsWith l "total" then none
  else if pyStartsWith l "/" then some l
  else if 9 ≤ (pySplit l).length then some ((pySplit l).getLastD "")
  else none

/-- The snapshot parser over a whole listing output. -/
def parseListing (s : String) : List String :=
  (splitLines (pyStrip s)).foldl
    (fun acc line =>
      match lineEntry line with
      | some p => addSet acc p
      | none => acc) []

/-- Filesystem snapshot from one listing-command outcome: empty when the
call raised or when the command printed nothing. -/
def snapshotOf (r : CommandOutcome) : List String :=
  match r.exc with
  | some _ => []
  | none => if strTruthy r.stdout then parseListing (r.stdout.getD "") else []

/-- The noise patterns excluded from auto-detected new files. -/
def excludedPatterns : List String :=
  [".pyc", "__pycache__", ".ipynb_checkpoints", ".cache"]

/-- `list(files_after - files_before)` filtered by the noise patterns. -/
def newFilesOf (bef aft : List String) : List String :=
  (aft.filter (fun f => ! bef.contains f)).filter
    (fun f => ! excludedPatterns.any (fun p => strContains f p))

/-- Plots collected from `execution.results`, in production order
(truthy `png` attribute). -/
def extractPlots (rs : List ExecResultValue) : List PlotResult :=
  rs.filterMap (fun r =>
    if strTruthy r.png then some ⟨"png", r.png.getD ""⟩ else none)

/-- Text result values collected from `execution.results`, in production
order (no truthy `png`, truthy `text`). -/
def extractTexts (rs : List ExecResultValue) : List String :=
  rs.filterMap (fun r =>
    if strTruthy r.png then none
    else if strTruthy r.text then some (r.text.getD "") else none)

/-- The `FileResult` built for one successfully read artifact. -/
def mkFileRecord (filename : String) (c : ReadContent) : FileResult :=
  ⟨filename, b64encode (contentBytes c), (contentBytes c).length⟩

/-- Try an ordered list of candidate paths, returning the first content
that reads successfully together with the trace of read calls made. -/
def tryReadPaths (env : SandboxEnv) :
    List String → Option ReadContent × List SandboxCall
  | [] => (none, [])
  | p :: rest =>
    match env.readFile p with
    | .ok c => (some c, [SandboxCall.readFile p none])
    | .error _ =>
      let out := tryReadPaths env rest
      (out.1, SandboxCall.readFile p none :: out.2)

/-- First collection loop: explicitly requested output files, each read by
its given path; a failed read is skipped.  Returns the records, the updated
collected-basenames set, and the trace of read calls. -/
def collectRequested (env : SandboxEnv) :
    List String → List String → List FileResult × List String × List SandboxCall
  | [], collected => ([], collected, [])
  | fp :: rest, collected =>
    match env.readFile fp with
    | .ok c =>
      let out := collectRequested env rest (addSet collected (basename fp))
      (mkFileRecord (basename fp) c :: out.1, out.2.1,
       SandboxCall.readFile fp none :: out.2.2)
    | .error _ =>
      let out := collectRequested env rest collected
      (out.1, out.2.1, SandboxCall.readFile fp none :: out.2.2)

/-- Second collection loop: diff-detected new files; a basename already
collected is skipped; otherwise the candidate paths (the diff path, the
home-directory path for the basename, the bare basename) are tried in
order. -/
def collectAuto (env : SandboxEnv) :
    List String → List String → List FileResult × List String × List SandboxCall
  | [], collected => ([], collected, [])
  | fp :: rest, collected =>
    if basename fp ∈ collected then collectAuto env rest collected
    else
      let attempt := tryReadPaths env [fp, "/home/user/" ++ basename fp, basename fp]
      match attempt.1 with
      | some c =>
        let out := collectAuto env rest (addSet collected (basename fp))
        (mkFileRecord (basename fp) c :: out.1, out.2.1, attempt.2 ++ out.2.2)
      | none =>
        let out := collectAuto env rest collected
        (out.1, out.2.1, attempt.2 ++ out.2.2)

/-- The listing command used for both snapshots. -/
def listCmd : String :=
  "find /home/user -maxdepth 2 -type f 2>/dev/null || ls -la /home/user"

/-- The diff-detected new files: empty when the after-execution listing
call raised (the `new_files = []` initialisation survives the handled
exception); otherwise the noise-filtered difference of the two
snapshots. -/
def detectedNewFiles (env : SandboxEnv) : List String :=
  match env.listAfterCmd.exc with
  | some _ => []
  | none => newFilesOf (snapshotOf env.listBeforeCmd) (snapshotOf env.listAfterCmd)

/-- Steps 2-5 of `execute_advanced`: snapshot before, run code, merge logs
and result texts, snapshot after and diff, collect artifacts, assemble the
response.  `installOutput` is the text captured by the install step. -/
def runPipeline (req : AdvancedExecuteRequest) (env : SandboxEnv)
    (installOutput : String) : AdvancedExecuteResponse × List SandboxCall :=
  let ex := env.runCode
  let stdout0 :=
    if ex.logs.stdout.isEmpty then "" else String.intercalate "\n" ex.logs.stdout
  let stderr0 :=
    if ex.logs.stderr.isEmpty then "" else String.intercalate "\n" ex.logs.stderr
  let texts := extractTexts ex.results
  let stdout1 :=
    if texts.isEmpty then stdout0
    else if stdout0 ≠ "" then stdout0 ++ "\n" ++ String.intercalate "\n" texts
    else String.intercalate "\n" texts
  let new_files := detectedNewFiles env
  let reqOut := collectRequested env req.output_files []
  let autoOut := collectAuto env new_files reqOut.2.1
  ({ success := ex.error.isNone,
     stdout := stdout1,
     stderr := stderr0,
     error := ex.error,
     plots := extractPlots ex.results,
     files := reqOut.1 ++ autoOut.1,
     install_output := installOutput },
   SandboxCall.runCommand listCmd (some 10) :: SandboxCall.runCode req.code none ::
   SandboxCall.runCommand listCmd (some 10) :: (reqOut.2.2 ++ autoOut.2.2))

/-- The install command string. -/
def installCmdStr (req : AdvancedExecuteRequest) : String :=
  "pip install -q " ++ String.intercalate " " req.dependencies

/-- The advanced execution orchestrator (`POST /execute-advanced`): install
dependencies (fatal on failure), snapshot, run code, snapshot, collect
artifacts, assemble.  Returns the response and the ordered trace of
provider calls. -/
def execute_advanced (req : AdvancedExecuteRequest) (env : SandboxEnv) :
    AdvancedExecuteResponse × List SandboxCall :=
  if req.dependencies.isEmpty then runPipeline req env ""
  else
    match env.installCmd.exc with
    | some e =>
      ({ success := false,
         stdout := "",
         stderr := "",
         error := some ("Failed to install dependencies: " ++ e),
         plots := [],
         files := [],
         install_output := e },
       [SandboxCall.runCommand (installCmdStr req) (some 60)])
    | none =>
      let out := runPipeline req env
        (env.installCmd.stdout.getD "" ++ env.installCmd.stderr.getD "")
      (out.1, SandboxCall.runCommand (installCmdStr req) (some 60) :: out.2)

/-- Well-formedness of the provider environment: byte contents returned by
`files.read` are genuine bytes (below 256). -/
def EnvWF (env : SandboxEnv) : Prop :=
  ∀ p b, env.readFile p = Except.ok (ReadContent.bytes b) → ∀ x ∈ b, x < 256

/-! ### Helper lemmas -/

theorem mem_addSet (l : List String) (x y : String) :
    y ∈ addSet l x ↔ y = x ∨ y ∈ l := by
  by_cases h : x ∈ l
  · simp only [addSet, if_pos h]
    exact ⟨Or.inr, fun hy => hy.elim (fun e => e ▸ h) id⟩
  · simp [addSet, if_neg h, or_comm]

theorem b64decChar_encChar : ∀ s, s < 64 → b64decChar (b64encChar s) = some s := by
  decide

theorem b64encChar_ne_pad : ∀ s, s < 64 → b64encChar s ≠ '=' := by
  decide

theorem b64decodeChars_encodeChars :
    ∀ (l : List Nat), (∀ b ∈ l, b < 256) →
      b64decodeChars (b64encodeChars l) = some l
  | [], _ => rfl
  | [b1], h => by
    have hb1 : b1 < 256 := h b1 (by simp)
    have h1 : b1 / 4 < 64 := by omega
    have h2 : b1 % 4 * 16 < 64 := by omega
    simp only [b64encodeChars, b64decodeChars, if_pos rfl, List.isEmpty,
      b64decChar_encChar _ h1, b64decChar_encChar _ h2]
    refine congrArg some ?_
    have : b1 / 4 * 4 + b1 % 4 * 16 / 16 = b1 := by omega
    rw [this]
  | [b1, b2], h => by
    have hb1 : b1 < 256 := h b1 (by simp)
    have hb2 : b2 < 256 := h b2 (by simp)
    have h1 : b1 / 4 < 64 := by omega
    have h2 : b1 % 4 * 16 + b2 / 16 < 64 := by omega
    have h3 : b2 % 16 * 4 < 64 := by omega
    have n3 : b64encChar (b2 % 16 * 4) ≠ '=' := b64encChar_ne_pad _ h3
    simp only [b64encodeChars, b64decodeChars, if_neg n3, if_pos rfl, List.isEmpty,
      b64decChar_encChar _ h1, b64decChar_encChar _ h2, b64decChar_encChar _ h3]
    refine congrArg some ?_
    have e1 : b1 / 4 * 4 + (b1 % 4 * 16 + b2 / 16) / 16 = b1 := by omega
    have e2 : (b1 % 4 * 16 + b2 / 16) % 16 * 16 + b2 % 16 * 4 / 4 = b2 := by omega
    rw [e1, e2]
  | b1 :: b2 :: b3 :: rest, h => by
    have hb1 : b1 < 256 := h b1 (by simp)
    have hb2 : b2 < 256 := h b2 (by simp)
    have hb3 : b3 < 256 := h b3 (by simp)
    have ih := b64decodeChars_encodeChars rest (fun x hx => h x (by simp [hx]))
    have h1 : b1 / 4 < 64 := by omega
    have h2 : b1 % 4 * 16 + b2 / 16 < 64 := by omega
    have h3 : b2 % 16 * 4 + b3 / 64 < 64 := by omega
    have h4 : b3 % 64 < 64 := by omega
    have n3 : b64encChar (b2 % 16 * 4 + b3 / 64) ≠ '=' := b64encChar_ne_pad _ h3
    have n4 : b64encChar (b3 % 64) ≠ '=' := b64encChar_ne_pad _ h4
    simp only [b64encodeChars, b64decodeChars, if_neg n3, if_neg n4,
      b64decChar_encChar _ h1, b64decChar_encChar _ h2,
      b64decChar_encChar _ h3, b64decChar_encChar _ h4, ih]
    refine congrArg some ?_
    have e1 : b1 / 4 * 4 + (b1 % 4 * 16 + b2 / 16) / 16 = b1 := by omega
    have e2 : (b1 % 4 * 16 + b2 / 16) % 16 * 16 + (b2 % 16 * 4 + b3 / 64) / 4 = b2 := by
      omega
    have e3 : (b2 % 16 * 4 + b3 / 64) % 4 * 64 + b3 % 64 = b3 := by omega
    rw [e1, e2, e3]

theorem b64decode_encode (l : List Nat) (h : ∀ b ∈ l, b < 256) :
    b64decode (b64encode l) = some l :=
  b64decodeChars_encodeChars l h

theorem contentBytes_lt_256 (env : SandboxEnv) (hwf : EnvWF env) (p : String)
    (c : ReadContent) (hc : env.readFile p = Except.ok c) :
    ∀ x ∈ contentBytes c, x < 256 := by
  cases c with
  | str s =>
    intro x hx
    simp only [contentBytes, List.mem_map] at hx
    obtain ⟨b, _, rfl⟩ := hx
    exact b.toNat_lt
  | bytes b => exact hwf p b hc

theorem runPipeline_files (req : AdvancedExecuteRequest) (env : SandboxEnv)
    (io : String) :
    (runPipeline req env io).1.files =
      (collectRequested env req.output_files []).1 ++
      (collectAuto env (detectedNewFiles env)
        (collectRequested env req.output_files []).2.1).1 := rfl

theorem runPipeline_calls (req : AdvancedExecuteRequest) (env : SandboxEnv)
    (io : String) :
    (runPipeline req env io).2 =
      SandboxCall.runCommand listCmd (some 10) ::
      SandboxCall.runCode req.code none ::
      SandboxCall.runCommand listCmd (some 10) ::
      ((collectRequested env req.output_files []).2.2 ++
       (collectAuto env (detectedNewFiles env)
         (collectRequested env req.output_files []).2.1).2.2) := rfl

theorem runPipeline_success (req : AdvancedExecuteRequest) (env : SandboxEnv)
    (io : String) :
    (runPipeline req env io).1.success = env.runCode.error.isNone := rfl

theorem runPipeline_error (req : AdvancedExecuteRequest) (env : SandboxEnv)
    (io : String) :
    (runPipeline req env io).1.error = env.runCode.error := rfl

theorem runPipeline_install_output (req : AdvancedExecuteRequest)
    (env : SandboxEnv) (io : String) :
    (runPipeline req env io).1.install_output = io := rfl

theorem execute_advanced_runs (req : AdvancedExecuteRequest) (env : SandboxEnv)
    (hrun : req.dependencies = [] ∨ env.installCmd.exc = none) :
    ∃ io pre, execute_advanced req env =
      ((runPipeline req env io).1, pre ++ (runPipeline req env io).2) := by
  by_cases hd : req.dependencies.isEmpty
  · exact ⟨"", [], by simp [execute_advanced, hd]⟩
  · have hexc : env.installCmd.exc = none := by
      rcases hrun with h | h
      · exact absurd (by simp [h]) hd
      · exact h
    exact ⟨env.installCmd.stdout.getD "" ++ env.installCmd.stderr.getD "",
      [SandboxCall.runCommand (installCmdStr req) (some 60)],
      by simp [execute_advanced, hd, hexc]⟩

theorem mkFileRecord_filename (fn : String) (c : ReadContent) :
    (mkFileRecord fn c).filename = fn := rfl

theorem tryReadPaths_some (env : SandboxEnv) (ps : List String) (c : ReadContent)
    (h : (tryReadPaths env ps).1 = some c) :
    ∃ p ∈ ps, env.readFile p = Except.ok c := by
  induction ps with
  | nil => simp [tryReadPaths] at h
  | cons p rest ih =>
    cases hp : env.readFile p with
    | ok c' =>
      simp only [tryReadPaths, hp, Option.some.injEq] at h
      exact ⟨p, by simp, h ▸ hp⟩
    | error e =>
      simp only [tryReadPaths, hp] at h
      obtain ⟨q, hq, hqc⟩ := ih h
      exact ⟨q, by simp [hq], hqc⟩

theorem collectRequested_filter_le (env : SandboxEnv) (paths collected : List String)
    (f : String) :
    ((collectRequested env paths collected).1.filter
      (fun r => r.filename = f)).length ≤
      (paths.filter (fun p => basename p = f)).length := by
  induction paths generalizing collected with
  | nil => simp [collectRequested]
  | cons fp rest ih =>
    cases hr : env.readFile fp with
    | ok c =>
      by_cases hf : basename fp = f
      · simp only [collectRequested, hr]
        simp [List.filter_cons, mkFileRecord_filename, hf]
        exact ih _
      · simp only [collectRequested, hr]
        simp [List.filter_cons, mkFileRecord_filename, hf]
        exact ih _
    | error e =>
      simp only [collectRequested, hr]
      by_cases hf : basename fp = f
      · simp [List.filter_cons, hf]
        exact le_trans (ih _) (Nat.le_succ _)
      · simp [List.filter_cons, hf]
        exact ih _

theorem collectAuto_filter (env : SandboxEnv) (paths : List String) (f : String) :
    ∀ collected : List String,
      (((collectAuto env paths collected).1.filter
          (fun r => r.filename = f)).length ≤ 1)
      ∧ (f ∈ collected →
          ((collectAuto env paths collected).1.filter
            (fun r => r.filename = f)).length = 0) := by
  induction paths with
  | nil => intro collected; simp [collectAuto]
  | cons fp rest ih =>
    intro collected
    by_cases hmem : basename fp ∈ collected
    · simpa [collectAuto, hmem] using ih collected
    · cases hatt : (tryReadPaths env
        [fp, "/home/user/" ++ basename fp, basename fp]).1 with
      | none =>
        simp only [collectAuto, if_neg hmem, hatt]
        exact ih collected
      | some c =>
        simp only [collectAuto, if_neg hmem, hatt]
        by_cases hf : basename fp = f
        · subst hf
          have h0 := (ih (addSet collected (basename fp))).2
            ((mem_addSet _ _ _).mpr (Or.inl rfl))
          constructor
          · simp [List.filter_cons, mkFileRecord_filename, h0]
          · intro hcol
            exact absurd hcol hmem
        · constructor
          · have h1 := (ih (addSet collected (basename fp))).1
            simpa [List.filter_cons, mkFileRecord_filename, hf] using h1
          · intro hcol
            have h2 := (ih (addSet collected (basename fp))).2
              ((mem_addSet _ _ _).mpr (Or.inr hcol))
            simpa [List.filter_cons, mkFileRecord_filename, hf] using h2

theorem collectRequested_record_mem (env : SandboxEnv) :
    ∀ (paths collected : List String) (p : String) (c : ReadContent),
      p ∈ paths → env.readFile p = Except.ok c →
      mkFileRecord (basename p) c ∈ (collectRequested env paths collected).1 := by
  intro paths
  induction paths with
  | nil =>
    intro collected p c hp _
    cases hp
  | cons fp rest ih =>
    intro collected p c hp hc
    rcases List.mem_cons.mp hp with rfl | hp'
    · simp [collectRequested, hc]
    · cases hr : env.readFile fp with
      | ok c' =>
        simp only [collectRequested, hr]
        exact List.mem_cons_of_mem _ (ih _ p c hp' hc)
      | error e =>
        simp only [collectRequested, hr]
        exact ih _ p c hp' hc

theorem collectRequested_mem_rec (env : SandboxEnv) :
    ∀ (paths collected : List String) (r : FileResult),
      r ∈ (collectRequested env paths collected).1 →
      ∃ p, p ∈ paths ∧ ∃ c, env.readFile p = Except.ok c ∧
        r = mkFileRecord (basename p) c := by
  intro paths
  induction paths with
  | nil =>
    intro collected r hr
    simp [collectRequested] at hr
  | cons fp rest ih =>
    intro collected r hr
    cases hfp : env.readFile fp with
    | ok c =>
      simp only [collectRequested, hfp, List.mem_cons] at hr
      rcases hr with rfl | hr'
      · exact ⟨fp, by simp, c, hfp, rfl⟩
      · obtain ⟨p, hp, c', hc', hrr⟩ := ih _ r hr'
        exact ⟨p, by simp [hp], c', hc', hrr⟩
    | error e =>
      simp only [collectRequested, hfp] at hr
      obtain ⟨p, hp, c', hc', hrr⟩ := ih _ r hr
      exact ⟨p, by simp [hp], c', hc', hrr⟩

theorem collectRequested_collected_sup (env : SandboxEnv) :
    ∀ (paths collected : List String) (f : String),
      (f ∈ collected ∨
        ∃ p, p ∈ paths ∧ basename p = f ∧ ∃ c, env.readFile p = Except.ok c) →
      f ∈ (collectRequested env paths collected).2.1 := by
  intro paths
  induction paths with
  | nil =>
    intro collected f h
    rcases h with h | ⟨p, hp, _⟩
    · simpa [collectRequested] using h
    · cases hp
  | cons fp rest ih =>
    intro collected f h
    cases hfp : env.readFile fp with
    | ok c =>
      simp only [collectRequested, hfp]
      apply ih
      rcases h with hcol | ⟨p, hp, hbase, hc⟩
      · exact Or.inl ((mem_addSet _ _ _).mpr (Or.inr hcol))
      · rcases List.mem_cons.mp hp with rfl | hp'
        · exact Or.inl ((mem_addSet _ _ _).mpr (Or.inl hbase.symm))
        · exact Or.inr ⟨p, hp', hbase, hc⟩
    | error e =>
      simp only [collectRequested, hfp]
      apply ih
      rcases h with hcol | ⟨p, hp, hbase, hc⟩
      · exact Or.inl hcol
      · rcases List.mem_cons.mp hp with rfl | hp'
        · obtain ⟨c, hc'⟩ := hc
          rw [hfp] at hc'
          cases hc'
        · exact Or.inr ⟨p, hp', hbase, hc⟩

theorem collectAuto_mem_rec (env : SandboxEnv) :
    ∀ (paths collected : List String) (r : FileResult),
      r ∈ (collectAuto env paths collected).1 →
      ∃ fn q c, env.readFile q = Except.ok c ∧ r = mkFileRecord fn c := by
  intro paths
  induction paths with
  | nil =>
    intro collected r hr
    simp [collectAuto] at hr
  | cons fp rest ih =>
    intro collected r hr
    by_cases hmem : basename fp ∈ collected
    · simp only [collectAuto, if_pos hmem] at hr
      exact ih _ r hr
    · cases hatt : (tryReadPaths env
        [fp, "/home/user/" ++ basename fp, basename fp]).1 with
      | some c =>
        simp only [collectAuto, if_neg hmem, hatt, List.mem_cons] at hr
        rcases hr with rfl | hr'
        · obtain ⟨q, _, hqc⟩ := tryReadPaths_some env _ c hatt
          exact ⟨basename fp, q, c, hqc, rfl⟩
        · exact ih _ r hr'
      | none =>
        simp only [collectAuto, if_neg hmem, hatt] at hr
        exact ih _ r hr

theorem mem_parseFold (p : String) :
    ∀ (lines acc : List String),
      p ∈ lines.foldl (fun acc line =>
          match lineEntry line with
          | some q => addSet acc q
          | none => acc) acc ↔
        p ∈ acc ∨ ∃ l ∈ lines, lineEntry l = some p := by
  intro lines
  induction lines with
  | nil =>
    intro acc
    simp
  | cons l rest ih =>
    intro acc
    rw [List.foldl_cons, ih]
    cases hl : lineEntry l with
    | some q =>
      simp only [hl, mem_addSet, List.mem_cons]
      constructor
      · rintro ((rfl | hacc) | ⟨l', hl', he⟩)
        · exact Or.inr ⟨l, Or.inl rfl, hl⟩
        · exact Or.inl hacc
        · exact Or.inr ⟨l', Or.inr hl', he⟩
      · rintro (hacc | ⟨l', rfl | hl', he⟩)
        · exact Or.inl (Or.inr hacc)
        · rw [hl] at he
          exact Or.inl (Or.inl (Option.some.inj he).symm)
        · exact Or.inr ⟨l', hl', he⟩
    | none =>
      simp only [hl, List.mem_cons]
      constructor
      · rintro (hacc | ⟨l', hl', he⟩)
        · exact Or.inl hacc
        · exact Or.inr ⟨l', Or.inr hl', he⟩
      · rintro (hacc | ⟨l', rfl | hl', he⟩)
        · exact Or.inl hacc
        · rw [hl] at he
          cases he
        · exact Or.inr ⟨l', hl', he⟩

theorem lineEntry_eq_some (l p : String) :
    lineEntry l = some p ↔
      pyStrip l ≠ "" ∧ pyStartsWith (pyStrip l) "total" = false ∧
      ((pyStartsWith (pyStrip l) "/" = true ∧ p = pyStrip l) ∨
       (pyStartsWith (pyStrip l) "/" = false ∧
        9 ≤ (pySplit (pyStrip l)).length ∧
        p = (pySplit (pyStrip l)).getLastD "")) := by
  simp only [lineEntry]
  by_cases h1 : pyStrip l = ""
  · simp [h1]
  · by_cases h2 : pyStartsWith (pyStrip l) "total"
    · simp [h1, h2]
    · by_cases h3 : pyStartsWith (pyStrip l) "/"
      · simp [h1, h2, h3]
        exact eq_comm
      · by_cases h4 : 9 ≤ (pySplit (pyStrip l)).length
        · simp [h1, h2, h3, h4]
          exact eq_comm
        · simp [h1, h2, h3, h4]

theorem exec_resp_eq (req : AdvancedExecuteRequest) (env : SandboxEnv)
    (hrun : req.dependencies = [] ∨ env.installCmd.exc = none) :
    ∃ io, (execute_advanced req env).1 = (runPipeline req env io).1 := by
  obtain ⟨io, pre, heq⟩ := execute_advanced_runs req env hrun
  exact ⟨io, by rw [heq]⟩

theorem exec_files_eq (req : AdvancedExecuteRequest) (env : SandboxEnv)
    (hrun : req.dependencies = [] ∨ env.installCmd.exc = none) :
    (execute_advanced req env).1.files =
      (collectRequested env req.output_files []).1 ++
      (collectAuto env (detectedNewFiles env)
        (collectRequested env req.output_files []).2.1).1 := by
  obtain ⟨io, pre, heq⟩ := execute_advanced_runs req env hrun
  rw [heq]
  exact runPipeline_files req env io

theorem joinLogs_eq (l : List String) :
    (if l.isEmpty then "" else String.intercalate "\n" l) =
      String.intercalate "\n" l := by
  cases l <;> simp [String.intercalate]

theorem runPipeline_stdout (req : AdvancedExecuteRequest) (env : SandboxEnv)
    (io : String) :
    (runPipeline req env io).1.stdout =
      (if (extractTexts env.runCode.results).isEmpty then
        (if env.runCode.logs.stdout.isEmpty then ""
         else String.intercalate "\n" env.runCode.logs.stdout)
       else if (if env.runCode.logs.stdout.isEmpty then ""
           else String.intercalate "\n" env.runCode.logs.stdout) ≠ "" then
        (if env.runCode.logs.stdout.isEmpty then ""
         else String.intercalate "\n" env.runCode.logs.stdout) ++ "\n" ++
          String.intercalate "\n" (extractTexts env.runCode.results)
       else String.intercalate "\n" (extractTexts env.runCode.results)) := rfl

theorem exec_files_provenance (req : AdvancedExecuteRequest) (env : SandboxEnv)
    (r : FileResult) (hr : r ∈ (execute_advanced req env).1.files) :
    ∃ fn q c, env.readFile q = Except.ok c ∧ r = mkFileRecord fn c := by
  by_cases hd : req.dependencies.isEmpty
  · have hfiles := exec_files_eq req env (Or.inl (by simpa using hd))
    rw [hfiles] at hr
    rcases List.mem_append.mp hr with h | h
    · obtain ⟨p, hp, c, hc, rfl⟩ := collectRequested_mem_rec env _ _ r h
      exact ⟨basename p, p, c, hc, rfl⟩
    · exact collectAuto_mem_rec env _ _ r h
  · cases hexc : env.installCmd.exc with
    | some e =>
      have hd' : req.dependencies.isEmpty = false := by simpa using hd
      simp [execute_advanced, hd', hexc] at hr
    | none =>
      have hfiles := exec_files_eq req env (Or.inr hexc)
      rw [hfiles] at hr
      rcases List.mem_append.mp hr with h | h
      · obtain ⟨p, hp, c, hc, rfl⟩ := collectRequested_mem_rec env _ _ r h
        exact ⟨basename p, p, c, hc, rfl⟩
      · exact collectAuto_mem_rec env _ _ r h

/-! ### Claim theorems -/

/-- C1: for every run of the advanced execution pipeline that produces an
`ExecutionResult` (whether the install step fails or execution completes),
`success` is true exactly when `error` is absent, and a dependency-install
failure independently forces `success = false`. -/
theorem c1_success_iff_error_absent (req : AdvancedExecuteRequest)
    (env : SandboxEnv) :
    ((execute_advanced req env).1.success = true ↔
      (execute_advanced req env).1.error = none)
    ∧ (req.dependencies ≠ [] → env.installCmd.exc.isSome = true →
        (execute_advanced req env).1.success = false) := by
  constructor
  · by_cases hd : req.dependencies.isEmpty
    · obtain ⟨io, pre, heq⟩ :=
        execute_advanced_runs req env (Or.inl (by simpa using hd))
      rw [heq]
      simp [runPipeline_success, runPipeline_error, Option.isNone_iff_eq_none]
    · cases hexc : env.installCmd.exc with
      | none =>
        obtain ⟨io, pre, heq⟩ := execute_advanced_runs req env (Or.inr hexc)
        rw [heq]
        simp [runPipeline_success, runPipeline_error, Option.isNone_iff_eq_none]
      | some e =>
        have hd' : req.dependencies.isEmpty = false := by
          simpa using hd
        simp [execute_advanced, hd', hexc]
  · intro hdep hsome
    have hd' : req.dependencies.isEmpty = false := by
      simp [List.isEmpty_iff]
      exact hdep
    obtain ⟨e, hexc⟩ := Option.isSome_iff_exists.mp hsome
    simp [execute_advanced, hd', hexc]

def reqC1 : AdvancedExecuteRequest := { code := "", dependencies := ["numpy"] }

def envC1 : SandboxEnv :=
  { installCmd := { stdout := none, stderr := none, exc := some "quota exceeded" },
    listBeforeCmd := { stdout := none, stderr := none },
    runCode := { logs := {} },
    listAfterCmd := { stdout := none, stderr := none },
    readFile := fun _ => Except.error "no sandbox" }

theorem c1_witness :
    ((execute_advanced reqC1 envC1).1.success = true ↔
      (execute_advanced reqC1 envC1).1.error = none)
    ∧ (execute_advanced reqC1 envC1).1.success = false :=
  ⟨(c1_success_iff_error_absent reqC1 envC1).1,
   (c1_success_iff_error_absent reqC1 envC1).2 (by decide) (by decide)⟩

/-- C2: for every request whose dependency-install step fails, the pipeline
terminates immediately with `success = false`, a populated `error`, an
empty artifact sequence, and a provider-call trace consisting of the single
install command — so neither code execution nor artifact retrieval is ever
invoked. -/
theorem c2_install_failure_short_circuits (req : AdvancedExecuteRequest)
    (env : SandboxEnv) (e : String)
    (hdep : req.dependencies ≠ []) (hexc : env.installCmd.exc = some e) :
    (execute_advanced req env).1.success = false
    ∧ (execute_advanced req env).1.error =
        some ("Failed to install dependencies: " ++ e)
    ∧ (execute_advanced req env).1.files = []
    ∧ (execute_advanced req env).2 =
        [SandboxCall.runCommand (installCmdStr req) (some 60)] := by
  have hd' : req.dependencies.isEmpty = false := by
    simp [List.isEmpty_iff]
    exact hdep
  simp [execute_advanced, hd', hexc]

def reqC2 : AdvancedExecuteRequest :=
  { code := "print(1)", dependencies := ["nonexistent-package-xyz"] }

def envC2 : SandboxEnv :=
  { installCmd := { stdout := none, stderr := none,
                    exc := some "CommandExitException: exit status 1" },
    listBeforeCmd := { stdout := none, stderr := none },
    runCode := { logs := { stdout := ["should never appear"] } },
    listAfterCmd := { stdout := none, stderr := none },
    readFile := fun _ => Except.ok (ReadContent.bytes [0]) }

theorem c2_witness :
    (execute_advanced reqC2 envC2).1.success = false
    ∧ (execute_advanced reqC2 envC2).1.error =
        some ("Failed to install dependencies: " ++
          "CommandExitException: exit status 1")
    ∧ (execute_advanced reqC2 envC2).1.files = []
    ∧ (execute_advanced reqC2 envC2).2 =
        [SandboxCall.runCommand (installCmdStr reqC2) (some 60)] :=
  c2_install_failure_short_circuits reqC2 envC2 _ (by decide) rfl

def reqC3 : AdvancedExecuteRequest :=
  { code := "", dependencies := ["nonexistent-package-xyz"] }

def envC3 : SandboxEnv :=
  { installCmd := { stdout := some "Collecting nonexistent-package-xyz",
                    stderr := some "ERROR: No matching distribution found",
                    exc := some "TimeoutException: command timed out" },
    listBeforeCmd := { stdout := none, stderr := none },
    runCode := { logs := {} },
    listAfterCmd := { stdout := none, stderr := none },
    readFile := fun _ => Except.error "no sandbox" }

/-- C3 counterexample: on an install failure the code sets
`install_output = str(e)` (`main.py` line 310), the string of the raised
exception — not the captured combined stdout/stderr of the package-manager
invocation, which is read only in the success path (line 298).  Here the
command emitted text, the call raised, and `install_output` is the
exception string, different from the combined emitted text. -/
theorem c3_counterexample :
    (execute_advanced reqC3 envC3).1.install_output =
      "TimeoutException: command timed out"
    ∧ (execute_advanced reqC3 envC3).1.install_output ≠
        (envC3.installCmd.stdout.getD "" ++ envC3.installCmd.stderr.getD "") := by
  constructor
  · decide
  · decide

/-- C3 (amended): for every request whose dependency-install step fails,
`install_output` carries the string rendering of the raised exception; the
combined stdout/stderr of the invocation is captured into `install_output`
only when the invocation succeeds. -/
theorem c3_amended_install_output_carries_exception
    (req : AdvancedExecuteRequest) (env : SandboxEnv) (e : String)
    (hdep : req.dependencies ≠ []) (hexc : env.installCmd.exc = some e) :
    (execute_advanced req env).1.install_output = e := by
  have hd' : req.dependencies.isEmpty = false := by
    simp [List.isEmpty_iff]
    exact hdep
  simp [execute_advanced, hd', hexc]

theorem c3_witness :
    (execute_advanced reqC3 envC3).1.install_output =
      "TimeoutException: command timed out" :=
  c3_amended_install_output_carries_exception reqC3 envC3 _ (by decide) rfl

def reqC4 : AdvancedExecuteRequest :=
  { code := "while True: pass", output_files := ["out.txt"] }

def envC4 : SandboxEnv :=
  { installCmd := { stdout := none, stderr := none },
    listBeforeCmd := { stdout := none, stderr := none, exc := some "transport" },
    runCode := { logs := {} },
    listAfterCmd := { stdout := none, stderr := none, exc := some "transport" },
    readFile := fun _ => Except.error "gone" }

/-- C4 fails on the code: the user-code execution call
(`sandbox.run_code(request.code)`, `main.py` line 334) and the artifact
reads (`sandbox.files.read`, lines 407 and 432) pass no timeout argument at
all — `request.timeout` is accepted but never used — so these blocking
provider calls are not bounded by an explicit timeout.  This theorem
evaluates the orchestrator at a concrete request and exhibits both
unbounded calls in the provider-call trace. -/
theorem c4_unbounded_provider_calls :
    SandboxCall.runCode "while True: pass" none ∈ (execute_advanced reqC4 envC4).2
    ∧ SandboxCall.readFile "out.txt" none ∈ (execute_advanced reqC4 envC4).2 := by
  decide

def reqC5 : AdvancedExecuteRequest :=
  { code := "x = 1", output_files := ["a.txt", "sub/a.txt"] }

def envC5 : SandboxEnv :=
  { installCmd := { stdout := none, stderr := none },
    listBeforeCmd := { stdout := none, stderr := none, exc := some "boom" },
    runCode := { logs := {} },
    listAfterCmd := { stdout := none, stderr := none, exc := some "boom" },
    readFile := fun _ => Except.ok (ReadContent.bytes [104, 105]) }

/-- C5 counterexample: the explicitly requested list is not deduplicated by
basename.  Two requested paths sharing the basename `a.txt` both read
successfully and both produce a `FileResult`, so the result carries two
records for the same logical file name, contradicting "at most one
ArtifactRecord per logical file name even if the file is discovered through
multiple candidate paths". -/
theorem c5_counterexample :
    ((execute_advanced reqC5 envC5).1.files.filter
      (fun r => r.filename = "a.txt")).length = 2 := by
  decide

/-- C5 (amended): deduplication by basename holds between the requested and
the auto-detected phases and within the auto-detected phase, but not within
the explicitly requested list itself.  Provided a basename occurs at most
once among the requested paths, the result contains at most one record for
it; and a successfully read requested path always contributes its record,
so when the same basename also appears among the diff-detected new files
the surviving record is the one read via the requested path. -/
theorem c5_amended_dedup_by_basename (req : AdvancedExecuteRequest)
    (env : SandboxEnv) (f : String)
    (hrun : req.dependencies = [] ∨ env.installCmd.exc = none)
    (hcount : (req.output_files.filter (fun p => basename p = f)).length ≤ 1) :
    (((execute_advanced req env).1.files.filter
        (fun r => r.filename = f)).length ≤ 1)
    ∧ (∀ p c, p ∈ req.output_files → basename p = f →
        env.readFile p = Except.ok c →
        mkFileRecord f c ∈ (execute_advanced req env).1.files) := by
  have hfiles := exec_files_eq req env hrun
  constructor
  · rw [hfiles, List.filter_append, List.length_append]
    rcases Nat.eq_zero_or_pos
      (((collectRequested env req.output_files []).1.filter
        (fun r => r.filename = f)).length) with h0 | hpos
    · have hB := (collectAuto_filter env (detectedNewFiles env) f
        (collectRequested env req.output_files []).2.1).1
      omega
    · obtain ⟨r, hrmem⟩ :=
        List.exists_mem_of_ne_nil _ (List.length_pos.mp hpos)
      have hrA : r ∈ (collectRequested env req.output_files []).1 :=
        (List.mem_filter.mp hrmem).1
      have hrf : r.filename = f := by
        have h2 := (List.mem_filter.mp hrmem).2
        simpa using h2
      obtain ⟨p, hp, c, hc, rfl⟩ :=
        collectRequested_mem_rec env req.output_files [] r hrA
      have hbase : basename p = f := by
        simpa [mkFileRecord_filename] using hrf
      have hcolmem : f ∈ (collectRequested env req.output_files []).2.1 :=
        collectRequested_collected_sup env req.output_files [] f
          (Or.inr ⟨p, hp, hbase, c, hc⟩)
      have hB0 := (collectAuto_filter env (detectedNewFiles env) f
        (collectRequested env req.output_files []).2.1).2 hcolmem
      have hAle := collectRequested_filter_le env req.output_files [] f
      omega
  · intro p c hp hbase hc
    rw [hfiles]
    have hmem := collectRequested_record_mem env req.output_files [] p c hp hc
    rw [hbase] at hmem
    exact List.mem_append_left _ hmem

def reqC5w : AdvancedExecuteRequest :=
  { code := "x = 1", output_files := ["/home/user/data.csv"] }

def envC5w : SandboxEnv :=
  { installCmd := { stdout := none, stderr := none },
    listBeforeCmd := { stdout := some "", stderr := none },
    runCode := { logs := {} },
    listAfterCmd := { stdout := some "/home/user/data.csv", stderr := none },
    readFile := fun _ => Except.ok (ReadContent.bytes [65]) }

theorem c5_witness :
    (((execute_advanced reqC5w envC5w).1.files.filter
        (fun r => r.filename = "data.csv")).length ≤ 1)
    ∧ mkFileRecord "data.csv" (ReadContent.bytes [65]) ∈
        (execute_advanced reqC5w envC5w).1.files :=
  ⟨(c5_amended_dedup_by_basename reqC5w envC5w "data.csv"
      (Or.inl rfl) (by decide)).1,
   (c5_amended_dedup_by_basename reqC5w envC5w "data.csv"
      (Or.inl rfl) (by decide)).2
     "/home/user/data.csv" (ReadContent.bytes [65]) (by decide) (by decide) rfl⟩

/-- C6: text-carrying result values are accumulated in production order
(`extractTexts` preserves the order of `execution.results`) and, after the
pass completes, appended to stdout joined by a newline after any existing
stdout content; with empty stdout the joined text stands alone with no
leading newline; with no text values stdout is just the joined log
fragments. -/
theorem c6_result_text_merge (req : AdvancedExecuteRequest) (env : SandboxEnv)
    (hrun : req.dependencies = [] ∨ env.installCmd.exc = none) :
    (extractTexts env.runCode.results = [] →
      (execute_advanced req env).1.stdout =
        String.intercalate "\n" env.runCode.logs.stdout)
    ∧ (extractTexts env.runCode.results ≠ [] →
        String.intercalate "\n" env.runCode.logs.stdout ≠ "" →
        (execute_advanced req env).1.stdout =
          String.intercalate "\n" env.runCode.logs.stdout ++ "\n" ++
          String.intercalate "\n" (extractTexts env.runCode.results))
    ∧ (extractTexts env.runCode.results ≠ [] →
        String.intercalate "\n" env.runCode.logs.stdout = "" →
        (execute_advanced req env).1.stdout =
          String.intercalate "\n" (extractTexts env.runCode.results)) := by
  obtain ⟨io, h1⟩ := exec_resp_eq req env hrun
  rw [h1, runPipeline_stdout, joinLogs_eq]
  refine ⟨?_, ?_, ?_⟩
  · intro ht
    simp [ht]
  · intro ht hb
    simp [List.isEmpty_iff, ht, hb]
  · intro ht hb
    simp [List.isEmpty_iff, ht, hb]

def reqC6a : AdvancedExecuteRequest := { code := "x = 1\nprint(f)" }

def envC6a : SandboxEnv :=
  { installCmd := { stdout := none, stderr := none },
    listBeforeCmd := { stdout := none, stderr := none },
    runCode := { logs := { stdout := ["x=1"] },
                 results := [{ text := some "2" }] },
    listAfterCmd := { stdout := none, stderr := none },
    readFile := fun _ => Except.error "no" }

def reqC6b : AdvancedExecuteRequest := { code := "\"hello\"" }

def envC6b : SandboxEnv :=
  { installCmd := { stdout := none, stderr := none },
    listBeforeCmd := { stdout := none, stderr := none },
    runCode := { logs := {}, results := [{ text := some "hello" }] },
    listAfterCmd := { stdout := none, stderr := none },
    readFile := fun _ => Except.error "no" }

theorem c6_witness :
    (execute_advanced reqC6a envC6a).1.stdout = "x=1\n2"
    ∧ (execute_advanced reqC6b envC6b).1.stdout = "hello" :=
  ⟨((c6_result_text_merge reqC6a envC6a (Or.inl rfl)).2.1
      (by decide) (by decide)).trans (by decide),
   ((c6_result_text_merge reqC6b envC6b (Or.inl rfl)).2.2
      (by decide) (by decide)).trans (by decide)⟩

/-- C7: the snapshot parser accepts two listing shapes and normalizes both
into one flat set of path strings: a (stripped) line starting with an
absolute path is taken whole; otherwise a line with at least nine
whitespace-separated fields contributes its last field; any `total` summary
line is skipped; and every line matching neither shape is silently
ignored. -/
theorem c7_snapshot_parser_shapes (s p : String) :
    p ∈ parseListing s ↔
      ∃ line ∈ splitLines (pyStrip s),
        pyStrip line ≠ "" ∧ pyStartsWith (pyStrip line) "total" = false ∧
        ((pyStartsWith (pyStrip line) "/" = true ∧ p = pyStrip line) ∨
         (pyStartsWith (pyStrip line) "/" = false ∧
          9 ≤ (pySplit (pyStrip line)).length ∧
          p = (pySplit (pyStrip line)).getLastD "")) := by
  unfold parseListing
  rw [mem_parseFold]
  simp only [List.not_mem_nil, false_or]
  exact exists_congr fun line =>
    and_congr_right fun _ => lineEntry_eq_some line p

def reqC8x : AdvancedExecuteRequest := { code := "x = 1" }

def envC8x : SandboxEnv :=
  { installCmd := { stdout := none, stderr := none },
    listBeforeCmd := { stdout := none, stderr := none, exc := some "net down" },
    runCode := { logs := {} },
    listAfterCmd := { stdout := some "/home/user/old.txt", stderr := none },
    readFile := fun p => if p = "/home/user/old.txt"
      then Except.ok (ReadContent.bytes [7]) else Except.error "no" }

/-- C8 counterexample: when only the BEFORE-execution listing fails (its
exception is swallowed at `main.py` lines 330-331 leaving `files_before`
empty) the request indeed does not fail and the failed snapshot is empty,
but artifact detection does NOT degrade to "no new files detected": line
392 computes `new_files = files_after - files_before` against the empty
set, so the pre-existing file `/home/user/old.txt` — present in the after
listing although the code created nothing and none was requested — is
surfaced as an auto-detected artifact. -/
theorem c8_counterexample :
    snapshotOf envC8x.listBeforeCmd = []
    ∧ (execute_advanced reqC8x envC8x).1.success = true
    ∧ detectedNewFiles envC8x = ["/home/user/old.txt"]
    ∧ (execute_advanced reqC8x envC8x).1.files =
        [mkFileRecord "old.txt" (ReadContent.bytes [7])] := by
  refine ⟨by decide, by decide, by decide, by decide⟩

/-- C8 (amended): a failing snapshot listing yields the empty snapshot and
never fails the request — a response is still produced with `success`
determined solely by the execution error.  When the AFTER-execution listing
fails, artifact detection degrades to "no new files detected" and only
explicitly requested files are collected.  When only the BEFORE-execution
listing fails, the diff is taken against the empty before-snapshot, so the
detected new files are the entire after-snapshot minus the noise patterns
(pre-existing files are over-detected, not "no new files detected"). -/
theorem c8_amended_snapshot_failure :
    (∀ (cmd : CommandOutcome) (m : String), cmd.exc = some m →
      snapshotOf cmd = [])
    ∧ (∀ (req : AdvancedExecuteRequest) (env : SandboxEnv) (m : String),
        (req.dependencies = [] ∨ env.installCmd.exc = none) →
        env.listAfterCmd.exc = some m →
        (execute_advanced req env).1.files =
          (collectRequested env req.output_files []).1
        ∧ ((execute_advanced req env).1.success = true ↔
            (execute_advanced req env).1.error = none))
    ∧ (∀ (env : SandboxEnv) (m : String),
        env.listBeforeCmd.exc = some m → env.listAfterCmd.exc = none →
        detectedNewFiles env =
          (snapshotOf env.listAfterCmd).filter
            (fun f => ! excludedPatterns.any (fun p => strContains f p)))
    ∧ (∀ (req : AdvancedExecuteRequest) (env : SandboxEnv) (m : String),
        (req.dependencies = [] ∨ env.installCmd.exc = none) →
        env.listBeforeCmd.exc = some m →
        ((execute_advanced req env).1.success = true ↔
          (execute_advanced req env).1.error = none)) := by
  refine ⟨?_, ?_, ?_, ?_⟩
  · intro cmd m h
    simp [snapshotOf, h]
  · intro req env m hrun hafter
    have hnew : detectedNewFiles env = [] := by
      simp [detectedNewFiles, hafter]
    constructor
    · rw [exec_files_eq req env hrun, hnew]
      simp [collectAuto]
    · obtain ⟨io, h1⟩ := exec_resp_eq req env hrun
      rw [h1]
      simp [runPipeline_success, runPipeline_error, Option.isNone_iff_eq_none]
  · intro env m hbefore hafter
    have hempty : snapshotOf env.listBeforeCmd = [] := by
      simp [snapshotOf, hbefore]
    simp [detectedNewFiles, hafter, hempty, newFilesOf]
  · intro req env m hrun hbefore
    obtain ⟨io, h1⟩ := exec_resp_eq req env hrun
    rw [h1]
    simp [runPipeline_success, runPipeline_error, Option.isNone_iff_eq_none]

def reqC8 : AdvancedExecuteRequest :=
  { code := "x = 1", output_files := ["/home/user/a.txt"] }

def envC8 : SandboxEnv :=
  { installCmd := { stdout := none, stderr := none },
    listBeforeCmd := { stdout := some "/home/user/a.txt", stderr := none },
    runCode := { logs := {} },
    listAfterCmd := { stdout := none, stderr := none, exc := some "net down" },
    readFile := fun _ => Except.ok (ReadContent.bytes [7]) }

theorem c8_witness :
    snapshotOf envC8.listAfterCmd = []
    ∧ ((execute_advanced reqC8 envC8).1.files =
        (collectRequested envC8 reqC8.output_files []).1
      ∧ ((execute_advanced reqC8 envC8).1.success = true ↔
          (execute_advanced reqC8 envC8).1.error = none))
    ∧ detectedNewFiles envC8x =
        (snapshotOf envC8x.listAfterCmd).filter
          (fun f => ! excludedPatterns.any (fun p => strContains f p))
    ∧ ((execute_advanced reqC8x envC8x).1.success = true ↔
        (execute_advanced reqC8x envC8x).1.error = none) :=
  ⟨c8_amended_snapshot_failure.1 envC8.listAfterCmd "net down" rfl,
   c8_amended_snapshot_failure.2.1 reqC8 envC8 "net down" (Or.inl rfl) rfl,
   c8_amended_snapshot_failure.2.2.1 envC8x "net down" rfl rfl,
   c8_amended_snapshot_failure.2.2.2 reqC8x envC8x "net down" (Or.inl rfl) rfl⟩

/-- C9: when the executed code reports an execution-level error the
pipeline still proceeds to the after-execution snapshot and to artifact
retrieval — the response carries the artifacts computed from the snapshots
and reads, `success = false`, the error populated, and the provider-call
trace still ends with the after-listing command followed by the artifact
read calls. -/
theorem c9_execution_error_still_collects (req : AdvancedExecuteRequest)
    (env : SandboxEnv) (e : String)
    (hrun : req.dependencies = [] ∨ env.installCmd.exc = none)
    (herr : env.runCode.error = some e) :
    (execute_advanced req env).1.success = false
    ∧ (execute_advanced req env).1.error = some e
    ∧ (execute_advanced req env).1.files =
        (collectRequested env req.output_files []).1 ++
        (collectAuto env (detectedNewFiles env)
          (collectRequested env req.output_files []).2.1).1
    ∧ ∃ pre, (execute_advanced req env).2 =
        pre ++ (SandboxCall.runCode req.code none ::
          SandboxCall.runCommand listCmd (some 10) ::
          ((collectRequested env req.output_files []).2.2 ++
           (collectAuto env (detectedNewFiles env)
             (collectRequested env req.output_files []).2.1).2.2)) := by
  obtain ⟨io, pre, heq⟩ := execute_advanced_runs req env hrun
  have h1 : (execute_advanced req env).1 = (runPipeline req env io).1 := by
    rw [heq]
  have h2 : (execute_advanced req env).2 = pre ++ (runPipeline req env io).2 := by
    rw [heq]
  refine ⟨?_, ?_, ?_, ?_⟩
  · rw [h1, runPipeline_success]
    simp [herr]
  · rw [h1, runPipeline_error, herr]
  · exact exec_files_eq req env hrun
  · refine ⟨pre ++ [SandboxCall.runCommand listCmd (some 10)], ?_⟩
    rw [h2, runPipeline_calls]
    simp

def reqC9 : AdvancedExecuteRequest := { code := "1/0" }

def envC9 : SandboxEnv :=
  { installCmd := { stdout := none, stderr := none },
    listBeforeCmd := { stdout := some "/home/user/keep.txt", stderr := none },
    runCode := { logs := { stderr := ["Traceback"] },
                 error := some "ZeroDivisionError: division by zero" },
    listAfterCmd := { stdout := some "/home/user/keep.txt\n/home/user/part.csv",
                      stderr := none },
    readFile := fun p => if p = "/home/user/part.csv"
      then Except.ok (ReadContent.bytes [120]) else Except.error "no" }

theorem c9_witness :
    (execute_advanced reqC9 envC9).1.success = false
    ∧ (execute_advanced reqC9 envC9).1.error =
        some "ZeroDivisionError: division by zero"
    ∧ (execute_advanced reqC9 envC9).1.files =
        (collectRequested envC9 reqC9.output_files []).1 ++
        (collectAuto envC9 (detectedNewFiles envC9)
          (collectRequested envC9 reqC9.output_files []).2.1).1
    ∧ ∃ pre, (execute_advanced reqC9 envC9).2 =
        pre ++ (SandboxCall.runCode reqC9.code none ::
          SandboxCall.runCommand listCmd (some 10) ::
          ((collectRequested envC9 reqC9.output_files []).2.2 ++
           (collectAuto envC9 (detectedNewFiles envC9)
             (collectRequested envC9 reqC9.output_files []).2.1).2.2)) :=
  c9_execution_error_still_collects reqC9 envC9 _ (Or.inl rfl) rfl

/-- C10: every `FileResult` in the `files` sequence of any returned result
is built from some successfully read content as base64 payload plus byte
length, so base64-decoding its `data` field yields a byte string whose
length equals its `size` field (for a well-formed provider whose byte
contents are genuine bytes). -/
theorem c10_size_matches_decoded_length (req : AdvancedExecuteRequest)
    (env : SandboxEnv) (hwf : EnvWF env) :
    ∀ r ∈ (execute_advanced req env).1.files,
      ∃ bs, b64decode r.data = some bs ∧ bs.length = r.size := by
  intro r hr
  obtain ⟨fn, q, c, hc, rfl⟩ := exec_files_provenance req env r hr
  have hb := contentBytes_lt_256 env hwf q c hc
  exact ⟨contentBytes c, b64decode_encode _ hb, rfl⟩

def reqC10 : AdvancedExecuteRequest :=
  { code := "x = 1", output_files := ["/home/user/out.bin"] }

def envC10 : SandboxEnv :=
  { installCmd := { stdout := none, stderr := none },
    listBeforeCmd := { stdout := none, stderr := none, exc := some "x" },
    runCode := { logs := {} },
    listAfterCmd := { stdout := none, stderr := none, exc := some "x" },
    readFile := fun p => if p = "/home/user/out.bin"
      then Except.ok (ReadContent.bytes [1, 255]) else Except.error "no" }

theorem envC10_wf : EnvWF envC10 := by
  intro p b h
  by_cases hp : p = "/home/user/out.bin"
  · simp only [envC10, hp, if_pos rfl, Except.ok.injEq] at h
    cases h
    decide
  · simp [envC10, hp] at h

theorem c10_witness :
    ∃ bs, b64decode (mkFileRecord "out.bin" (ReadContent.bytes [1, 255])).data =
        some bs ∧
      bs.length = (mkFileRecord "out.bin" (ReadContent.bytes [1, 255])).size :=
  c10_size_matches_decoded_length reqC10 envC10 envC10_wf
    (mkFileRecord "out.bin" (ReadContent.bytes [1, 255])) (by decide)

end ClaraVerse
